import Mathlib

/-!
Verification of the aggregation core of the auto-osint repository.

The source is dynamically typed Python; its JSON-like data trees are
embedded as the inductive type `Json` below, Python dicts as insertion
ordered association lists (`List (String × _)`), and each core function of
`core/profile_manager.py` and `core/scanner.py` as a Lean function of the
same name.  File input/output is modelled by an explicit store value
(profile name to parse outcome), and wall-clock timestamps by explicit
string parameters.
-/

namespace AutoOsint

/-- Python dict lookup (`d.get(k)`): first binding wins. -/
def lookupA {α : Type} : List (String × α) → String → Option α
  | [], _ => none
  | (k, v) :: rest, key => if k = key then some v else lookupA rest key

/-- Python dict assignment (`d[k] = v`): replace the existing binding in
place, else append a new binding at the end (dict insertion order). -/
def setA {α : Type} : List (String × α) → String → α → List (String × α)
  | [], key, v => [(key, v)]
  | (k, w) :: rest, key, v =>
      if k = key then (k, v) :: rest else (k, w) :: setA rest key v

/-- The keys of a Python dict, in insertion order. -/
def keysA {α : Type} (m : List (String × α)) : List String := m.map Prod.fst

/-- JSON-like dynamically typed data tree (Python nested dicts / lists /
scalars, as produced and consumed by the collectors and the profile
manager). -/
inductive Json : Type where
  | null : Json
  | bool : Bool → Json
  | num : Int → Json
  | str : String → Json
  | arr : List Json → Json
  | obj : List (String × Json) → Json

mutual

/-- Source `core/profile_manager.py`, `_merge_data_structures`: both dicts
recursively merge key by key, both lists concatenate, anything else is
replaced by the new value. -/
def _merge_data_structures : Json → Json → Json
  | .obj e, .obj n => .obj (mergeEntries e n)
  | .arr e, .arr n => .arr (e ++ n)
  | _, n => n

/-- The `for key, value in new.items()` loop of `_merge_data_structures`,
with `acc` the evolving copy of the existing dict. -/
def mergeEntries : List (String × Json) → List (String × Json) → List (String × Json)
  | acc, [] => acc
  | acc, (k, v) :: rest =>
      match lookupA acc k with
      | some ev => mergeEntries (setA acc k (_merge_data_structures ev v)) rest
      | none => mergeEntries (acc ++ [(k, v)]) rest

end

/-- The entries of a Python dict value (a node known to be a mapping). -/
def Json.entries : Json → List (String × Json)
  | .obj m => m
  | _ => []

/-- Python `d.get(k, default)`.  In the embedded pipeline this is only ever
applied to mapping nodes; on any other node it returns the default. -/
def Json.getJ : Json → String → Json → Json
  | .obj m, k, d => (lookupA m k).getD d
  | _, _, d => d

/-- Python `d[k] = v` on a mapping node (a no-op on any other node, which
the pipeline never produces at an assignment site). -/
def Json.jset : Json → String → Json → Json
  | .obj m, k, v => .obj (setA m k v)
  | j, _, _ => j

/-- Python `k in d` for a mapping node. -/
def Json.hasKey : Json → String → Bool
  | .obj m, k => (lookupA m k).isSome
  | _, _ => false

/-- Python `isinstance(x, dict)`. -/
def Json.isObj : Json → Bool
  | .obj _ => true
  | _ => false

/-- A scalar (non-container) node: neither a mapping nor a sequence. -/
def Json.isScalar : Json → Bool
  | .arr _ => false
  | .obj _ => false
  | _ => true

/-- Python `list.append` on a sequence node. -/
def Json.pushElem : Json → Json → Json
  | .arr l, x => .arr (l ++ [x])
  | j, _ => j

/-- Python `len` of a sequence node. -/
def Json.arrLen : Json → Nat
  | .arr l => l.length
  | _ => 0

/-- Python `x == "lit"` where `x` came out of an untyped tree. -/
def Json.eqStr : Json → String → Bool
  | .str s, t => s = t
  | _, _ => false

/-- Python `summary["total_scans"] += 1` (the counter is always a number
there). -/
def bumpNum : Json → Json
  | .num n => .num (n + 1)
  | j => j

/-- Truthiness of `target.get(field)` in Python: `None` and `""` are falsy. -/
def truthy (s : Option String) : Bool :=
  match s with
  | some v => v ≠ ""
  | none => false

/-- Python `target.get(field, "")`-style read used after a truthiness test. -/
def tgtGet (t : List (String × String)) (k : String) : String :=
  (lookupA t k).getD ""

/-- A collector (`modules/*`, consumed behind the uniform `scan` contract):
either returns a data tree or raises, modelled by `Except` with the
exception text. -/
abbrev Collector := List (String × String) → Except String Json

/-- The `try/except` body of `OSINTScanner.scan_target` for one registered
search type: a normal return is stored as a `completed` entry with the
returned data, a raise is caught and stored as a `failed` entry carrying
the exception text.  The measured wall clock duration is an I/O effect and
is recorded as `0`. -/
def categoryEntry (scanner : Collector) (target : List (String × String)) : Json :=
  match scanner target with
  | .ok scanData => .obj [("data", scanData), ("scan_time", .num 0), ("status", .str "completed")]
  | .error e => .obj [("data", .obj []), ("error", .str e), ("status", .str "failed")]

/-- The `for search_type in search_types` loop of
`OSINTScanner.scan_target`: the outcome of a registered scanner is written into
the results dict, an unregistered search type is only logged and never
enters the results dict. -/
def runSearches (scanners : List (String × Collector)) (target : List (String × String)) :
    List (String × Json) → List String → List (String × Json)
  | acc, [] => acc
  | acc, searchType :: rest =>
      match lookupA scanners searchType with
      | some scanner =>
          runSearches scanners target (setA acc searchType (categoryEntry scanner target)) rest
      | none => runSearches scanners target acc rest

/-- Source `core/scanner.py`, `OSINTScanner.scan_target`.  The timestamp string is
passed in for `datetime.now().isoformat()`. -/
def scan_target (scanners : List (String × Collector)) (target : List (String × String))
    (search_types : List String) (now : String) : Json :=
  .obj [("target", .obj (target.map (fun p => (p.1, Json.str p.2)))),
        ("scan_time", .str now),
        ("search_types", .arr (search_types.map Json.str)),
        ("results", .obj (runSearches scanners target [] search_types))]

/-- The whitespace set of Python `str.split()` with no separator (the
ASCII whitespace characters; Unicode-only space characters are not
modelled). -/
def pyIsSpace (c : Char) : Bool :=
  c = ' ' || c = '\t' || c = '\n' || c = '\r' || c = '\x0b' || c = '\x0c'

/-- The character walk of Python `str.split()`: `acc` holds the current
run of non-whitespace characters in reverse; a whitespace boundary emits
the run, and empty runs are dropped, so leading, trailing and repeated
whitespace produce no parts. -/
def splitWsAux : List Char → List Char → List String
  | [], acc => if acc.isEmpty then [] else [String.mk acc.reverse]
  | c :: rest, acc =>
      if pyIsSpace c then
        if acc.isEmpty then splitWsAux rest []
        else String.mk acc.reverse :: splitWsAux rest []
      else splitWsAux rest (c :: acc)

/-- Python `str.split()` with no separator: split on runs of any
whitespace, never returning empty parts. -/
def pySplit (s : String) : List String := splitWsAux s.data []

/-- Source `core/profile_manager.py`, `_generate_profile_name`.  Here `now` stands for
the `datetime.now()` timestamp formatting of the fallback branch. -/
def _generate_profile_name (target : List (String × String)) (now : String) : String :=
  if truthy (lookupA target "username") then "profile_" ++ tgtGet target "username"
  else if truthy (lookupA target "email") then
    "profile_" ++ (((tgtGet target "email").splitOn "@").headD "")
  else if truthy (lookupA target "domain") then "profile_" ++ tgtGet target "domain"
  else if truthy (lookupA target "full_name") then
    let nameParts := pySplit (tgtGet target "full_name")
    if nameParts.length ≥ 2 then
      "profile_" ++ nameParts.headD "" ++ "_" ++ ((nameParts.drop 1).headD "")
    else "profile_" ++ now
  else "profile_" ++ now

/-- Embeds `data.get("summary", {}).get(field, 0)` of `_generate_summary`. -/
def summaryCount (data : Json) (field : String) : Json :=
  (data.getJ "summary" (.obj [])).getJ field (.num 0)

/-- The initial summary dict of `_generate_summary`, in source order. -/
def initSummary : List (String × Json) :=
  [("total_scans", .num 0), ("social_media_profiles", .num 0), ("breaches_found", .num 0),
   ("public_records", .num 0), ("domains_checked", .num 0), ("images_found", .num 0),
   ("locations_found", .num 0)]

/-- The `for search_type, scan_data in scan_results.get("results", {}).items()`
loop of `_generate_summary`. -/
def summaryLoop : List (String × Json) → List (String × Json) → List (String × Json)
  | summ, [] => summ
  | summ, (searchType, scanData) :: rest =>
      if scanData.isObj && (scanData.getJ "status" .null).eqStr "completed" then
        let summ1 := setA summ "total_scans" (bumpNum ((lookupA summ "total_scans").getD .null))
        let data := scanData.getJ "data" (.obj [])
        let summ2 :=
          if searchType = "social" then
            setA summ1 "social_media_profiles" (summaryCount data "found_profiles")
          else if searchType = "breach" then
            setA summ1 "breaches_found" (summaryCount data "total_breaches")
          else if searchType = "public" then
            setA summ1 "public_records" (summaryCount data "total_records")
          else if searchType = "domain" then
            setA summ1 "domains_checked" (summaryCount data "domains_checked")
          else if searchType = "images" then
            setA summ1 "images_found" (summaryCount data "images_found")
          else if searchType = "geolocation" then
            setA summ1 "locations_found" (summaryCount data "total_locations")
          else summ1
        summaryLoop summ2 rest
      else summaryLoop summ rest

/-- Source `core/profile_manager.py`, `_generate_summary`. -/
def _generate_summary (scan_results : Json) : Json :=
  .obj (summaryLoop initSummary (scan_results.getJ "results" (.obj [])).entries)

/-- Source `core/profile_manager.py`, `_merge_search_data`: merge the `data`
fields recursively when both sides have one, then let the new
`scan_time` and `status` win when present. -/
def _merge_search_data (existing new : Json) : Json :=
  let m1 :=
    if new.hasKey "data" && existing.hasKey "data" then
      existing.jset "data"
        (_merge_data_structures (existing.getJ "data" .null) (new.getJ "data" .null))
    else existing
  let m2 := if new.hasKey "scan_time" then m1.jset "scan_time" (new.getJ "scan_time" .null) else m1
  if new.hasKey "status" then m2.jset "status" (new.getJ "status" .null) else m2

/-- The `for search_type, new_data in new.get("results", {}).items()` loop
of `_merge_scan_results`: a search type absent from the existing results
dict is inserted as is; one present on both sides is merged through
`_merge_search_data` when both values are dicts, and otherwise left as the
existing value. -/
def mergeResultsLoop : Json → List (String × Json) → Json
  | merged, [] => merged
  | merged, (searchType, newData) :: rest =>
      let res := merged.getJ "results" (.obj [])
      match lookupA res.entries searchType with
      | none =>
          mergeResultsLoop (merged.jset "results" (.obj (setA res.entries searchType newData))) rest
      | some existingData =>
          if existingData.isObj && newData.isObj then
            mergeResultsLoop
              (merged.jset "results"
                (.obj (setA res.entries searchType (_merge_search_data existingData newData)))) rest
          else mergeResultsLoop merged rest

/-- Source `core/profile_manager.py`, `_merge_scan_results`. -/
def _merge_scan_results (existing new : Json) : Json :=
  mergeResultsLoop existing (new.getJ "results" (.obj [])).entries

/-- Source `core/profile_manager.py`, `_merge_profiles`.  The dict lookups
`merged["scan_history"]`, `new["last_updated"]` and `new["current_data"]`
always succeed in the save pipeline; their defaults here are never
reached. -/
def _merge_profiles (existing new : Json) : Json :=
  let merged := existing.jset "last_updated" (new.getJ "last_updated" .null)
  let scanEntry := Json.obj [("timestamp", new.getJ "last_updated" .null),
    ("scan_results", new.getJ "current_data" .null)]
  let merged := merged.jset "scan_history"
    ((merged.getJ "scan_history" (.arr [])).pushElem scanEntry)
  let currentMerged :=
    _merge_scan_results (merged.getJ "current_data" (.obj [])) (new.getJ "current_data" .null)
  let merged := merged.jset "current_data" currentMerged
  merged.jset "summary" (_generate_summary currentMerged)

/-- The profile store: for each profile name, the parse outcome of the
persisted file `profiles/<name>.json` (`some tree` for well-formed JSON,
`none` for content that fails to parse); a name absent from the store is a
file that does not exist. -/
abbrev Store := List (String × Option Json)

/-- Source `core/profile_manager.py`, `load_profile`: missing file and
unparseable file both come back as `none`, a parsed file comes back as the
parsed tree. -/
def load_profile (store : Store) (profile_name : String) : Option Json :=
  match lookupA store profile_name with
  | none => none
  | some parsed =>
      match parsed with
      | none => none
      | some j => some j

/-- The name resolution at the top of `save_profile`: Python
`if not profile_name` treats both an omitted and an empty explicit name as
absent and falls back to `_generate_profile_name`. -/
def resolveName (target : List (String × String)) (profile_name : Option String)
    (now : String) : String :=
  match profile_name with
  | some n => if n = "" then _generate_profile_name target now else n
  | none => _generate_profile_name target now

/-- The fresh `profile_data` dict built by `save_profile`, in source
order. -/
def newProfileData (target : List (String × String)) (scan_results : Json)
    (name now : String) : Json :=
  .obj [
    ("target", .obj (target.map (fun p => (p.1, Json.str p.2)))),
    ("profile_name", .str name),
    ("created_at", .str now),
    ("last_updated", .str now),
    ("scan_history", .arr []),
    ("current_data", scan_results),
    ("summary", _generate_summary scan_results)]

/-- Source `core/profile_manager.py`, `save_profile`, as a transition on the
store; returns the updated store and the resolved profile name.  `now`
stands for the `datetime.now()` timestamps taken during the call. -/
def save_profile (store : Store) (target : List (String × String)) (scan_results : Json)
    (profile_name : Option String) (now : String) : Store × String :=
  let name := resolveName target profile_name now
  let profileData := newProfileData target scan_results name now
  let finalData :=
    match load_profile store name with
    | some existing => _merge_profiles existing profileData
    | none => profileData
  (setA store name (some finalData), name)

/-- The reconstruction fold of the specification: every `scan_history` entry,
in order, folded through the session-level merge starting from an empty
tree. -/
def replay_history (entries : List Json) : Json :=
  entries.foldl (fun acc e => _merge_scan_results acc (e.getJ "scan_results" .null)) (.obj [])

mutual

/-- The tree that doubles every sequence leaf of its argument and keeps
every scalar leaf, descending through mappings: the expected shape of
merging a tree with itself. -/
def doubleSeqs : Json → Json
  | .obj m => .obj (doubleSeqsEntries m)
  | .arr l => .arr (l ++ l)
  | j => j

def doubleSeqsEntries : List (String × Json) → List (String × Json)
  | [] => []
  | (k, v) :: rest => (k, doubleSeqs v) :: doubleSeqsEntries rest

end

/-- Pairwise distinct keys of one association list, as a Boolean. -/
def nodupKeysB : List (String × Json) → Bool
  | [] => true
  | (k, _) :: rest => !((keysA rest).contains k) && nodupKeysB rest

mutual

/-- Every mapping node along the mapping spine of the tree has pairwise
distinct keys — automatic for trees that came out of Python dicts. -/
def objKeysNodup : Json → Bool
  | .obj m => nodupKeysB m && objEntriesNodup m
  | _ => true

def objEntriesNodup : List (String × Json) → Bool
  | [] => true
  | (_, v) :: rest => objKeysNodup v && objEntriesNodup rest

end

/-- The node of a tree reached by a path of mapping keys. -/
def leafAt : Json → List String → Option Json
  | j, [] => some j
  | .obj m, k :: p =>
      match lookupA m k with
      | some v => leafAt v p
      | none => none
  | _, _ :: _ => none

/-- Sample target used by the profile manager tests of the repository. -/
def targetTestuser : List (String × String) := [("username", "testuser")]

/-- The target of the concrete scenario in the specification. -/
def targetAlice : List (String × String) := [("username", "alice")]

/-- A scan session carrying one completed `social` result (the shape of
the `sample_scan_results` fixture of the repository). -/
def sessionSocial : Json := .obj [
  ("target", .obj [("username", .str "testuser")]),
  ("scan_time", .str "2023-01-01T00:00:00"),
  ("results", .obj [
    ("social", .obj [
      ("data", .obj [
        ("platforms", .obj [
          ("twitter", .arr [.obj [("username", .str "testuser"), ("found", .bool true)]])]),
        ("summary", .obj [("found_profiles", .num 2)])]),
      ("status", .str "completed"),
      ("scan_time", .num 1)])])]

/-- A scan session carrying one completed `breach` result. -/
def sessionBreach : Json := .obj [
  ("target", .obj [("username", .str "testuser")]),
  ("scan_time", .str "2023-01-02T00:00:00"),
  ("results", .obj [
    ("breach", .obj [
      ("data", .obj [
        ("breaches", .arr [.obj [("name", .str "ExampleBreach")]]),
        ("summary", .obj [("total_breaches", .num 1)])]),
      ("status", .str "completed"),
      ("scan_time", .num 1)])])]

/-- The session of the specification scenario taken literally: completed
`social` result whose data is the flat mapping `{"found_profiles": 2}`. -/
def sessionAliceFlat : Json := .obj [
  ("target", .obj [("username", .str "alice")]),
  ("scan_time", .str "2024-01-01T00:00:00"),
  ("results", .obj [
    ("social", .obj [
      ("data", .obj [("found_profiles", .num 2)]),
      ("status", .str "completed"),
      ("scan_time", .num 1)])])]

/-- The session of the specification scenario with the profile count at the
sub-path the summary generator actually reads,
`data["summary"]["found_profiles"]`. -/
def sessionAliceNested : Json := .obj [
  ("target", .obj [("username", .str "alice")]),
  ("scan_time", .str "2024-01-01T00:00:00"),
  ("results", .obj [
    ("social", .obj [
      ("data", .obj [("summary", .obj [("found_profiles", .num 2)])]),
      ("status", .str "completed"),
      ("scan_time", .num 1)])])]

/-- A concrete mapping tree with a scalar key and a sequence key. -/
def witA : List (String × Json) := [("x", .num 1), ("l", .arr [.null])]

/-- A concrete mapping tree overlapping `witA` on both keys and adding one. -/
def witB : List (String × Json) := [("x", .num 2), ("l", .arr [.null, .null]), ("y", .str "b")]

/-- A concrete tree with a sequence leaf and a scalar leaf under a mapping. -/
def witSelf : Json := .obj [("l", .arr [.null]), ("x", .num 5)]

/-- A concrete collector that always raises. -/
def witFail : Collector := fun _ => .error "network failure"

/-- A concrete collector that always succeeds. -/
def witOk : Collector := fun _ => .ok (.obj [("found", .num 3)])

/-- A concrete scanner registry with one failing and one succeeding
collector. -/
def witScanners : List (String × Collector) := [("social", witFail), ("breach", witOk)]

/-- A concrete store with one well-formed persisted profile and one
corrupt entry. -/
def witStore : Store := [("good", some (.obj [("profile_name", .str "good")])), ("bad", none)]

/-! ## Association-list (Python dict) lemmas -/

theorem lookupA_mem_keysA {α : Type} {m : List (String × α)} {k : String} {v : α}
    (h : lookupA m k = some v) : k ∈ keysA m := by
  induction m with
  | nil => simp [lookupA] at h
  | cons p rest ih =>
    rw [lookupA] at h
    by_cases hk : p.1 = k
    · simp [keysA, hk]
    · simp only [hk, if_false] at h
      simp [keysA, List.mem_map] at ih ⊢
      exact Or.inr (ih h)

theorem keysA_nil {α : Type} : keysA ([] : List (String × α)) = [] := rfl

theorem keysA_cons {α : Type} (p : String × α) (rest : List (String × α)) :
    keysA (p :: rest) = p.1 :: keysA rest := rfl

theorem lookupA_eq_none_iff {α : Type} {m : List (String × α)} {k : String} :
    lookupA m k = none ↔ k ∉ keysA m := by
  induction m with
  | nil => simp [lookupA, keysA]
  | cons p rest ih =>
    obtain ⟨pk, pv⟩ := p
    rw [lookupA, keysA_cons]
    by_cases hk : pk = k
    · subst hk
      simp
    · simp only [hk, if_false, ih, List.mem_cons]
      constructor
      · intro h hh
        rcases hh with hh | hh
        · exact hk hh.symm
        · exact h hh
      · intro h hh
        exact h (Or.inr hh)

theorem lookupA_setA_self {α : Type} (m : List (String × α)) (k : String) (v : α) :
    lookupA (setA m k v) k = some v := by
  induction m with
  | nil => simp [setA, lookupA]
  | cons p rest ih =>
    obtain ⟨pk, pv⟩ := p
    rw [setA]
    by_cases hk : pk = k <;> simp [hk, lookupA, ih]

theorem lookupA_setA_ne {α : Type} (m : List (String × α)) (k key : String) (v : α)
    (h : k ≠ key) : lookupA (setA m key v) k = lookupA m k := by
  induction m with
  | nil => simp [setA, lookupA, Ne.symm h]
  | cons p rest ih =>
    obtain ⟨pk, pv⟩ := p
    rw [setA]
    by_cases hk : pk = key
    · subst hk
      simp [lookupA, Ne.symm h]
    · rw [if_neg hk, lookupA, lookupA]
      by_cases hpk : pk = k <;> simp [hpk, ih]

theorem mem_keysA_setA {α : Type} (m : List (String × α)) (k key : String) (v : α) :
    k ∈ keysA (setA m key v) ↔ k ∈ keysA m ∨ k = key := by
  induction m with
  | nil => simp [setA, keysA, eq_comm]
  | cons p rest ih =>
    obtain ⟨pk, pv⟩ := p
    rw [setA]
    by_cases hk : pk = key <;> simp [hk, keysA, eq_comm] at ih ⊢
    · tauto
    · rw [ih]
      tauto

theorem lookupA_append {α : Type} (a b : List (String × α)) (k : String) :
    lookupA (a ++ b) k =
      match lookupA a k with
      | some v => some v
      | none => lookupA b k := by
  induction a with
  | nil => simp [lookupA]
  | cons p rest ih =>
    obtain ⟨pk, pv⟩ := p
    by_cases hk : pk = k <;> simp [lookupA, hk, ih]

theorem keysA_append {α : Type} (a b : List (String × α)) :
    keysA (a ++ b) = keysA a ++ keysA b := by
  simp [keysA]

/-! ## Recursive merge: C1 -/

theorem mergeEntries_nil (acc : List (String × Json)) : mergeEntries acc [] = acc := by
  rw [mergeEntries]

theorem mergeEntries_cons (acc rest : List (String × Json)) (k : String) (v : Json) :
    mergeEntries acc ((k, v) :: rest) =
      match lookupA acc k with
      | some ev => mergeEntries (setA acc k (_merge_data_structures ev v)) rest
      | none => mergeEntries (acc ++ [(k, v)]) rest := by
  rw [mergeEntries]

theorem mem_keysA_mergeEntries (l : List (String × Json)) (acc : List (String × Json))
    (k : String) : k ∈ keysA (mergeEntries acc l) ↔ k ∈ keysA acc ∨ k ∈ keysA l := by
  induction l generalizing acc with
  | nil => simp [mergeEntries_nil, keysA]
  | cons p rest ih =>
    obtain ⟨pk, pv⟩ := p
    rw [mergeEntries_cons, keysA_cons]
    cases hl : lookupA acc pk with
    | some ev =>
      have hpk : pk ∈ keysA acc := lookupA_mem_keysA hl
      have hkpk : k = pk → k ∈ keysA acc := fun h => h ▸ hpk
      rw [ih]
      simp only [mem_keysA_setA, List.mem_cons]
      tauto
    | none =>
      rw [ih, keysA_append, keysA_cons, keysA_nil]
      simp only [List.mem_append, List.mem_cons, List.mem_singleton, List.not_mem_nil, or_false]
      tauto

theorem lookupA_mergeEntries (l : List (String × Json)) (hnd : (keysA l).Nodup)
    (acc : List (String × Json)) (k : String) :
    lookupA (mergeEntries acc l) k =
      match lookupA l k, lookupA acc k with
      | none, r => r
      | some v, none => some v
      | some v, some ev => some (_merge_data_structures ev v) := by
  induction l generalizing acc with
  | nil => cases h : lookupA acc k <;> simp [mergeEntries_nil, lookupA, h]
  | cons p rest ih =>
    obtain ⟨pk, pv⟩ := p
    rw [keysA_cons, List.nodup_cons] at hnd
    obtain ⟨hpknot, hnd2⟩ := hnd
    rw [mergeEntries_cons]
    by_cases hk : pk = k
    · subst hk
      have hrest : lookupA rest pk = none := lookupA_eq_none_iff.mpr hpknot
      cases hl : lookupA acc pk with
      | some ev =>
        rw [ih hnd2, hrest, lookupA_setA_self]
        simp [lookupA, hl]
      | none =>
        rw [ih hnd2, hrest, lookupA_append, hl]
        simp [lookupA]
    · cases hl : lookupA acc pk with
      | some ev =>
        rw [ih hnd2, lookupA_setA_ne _ _ _ _ (Ne.symm hk)]
        rw [lookupA, if_neg hk]
      | none =>
        rw [ih hnd2, lookupA_append, lookupA, if_neg hk]
        cases har : lookupA rest k <;> cases hak : lookupA acc k <;>
          simp [lookupA, hk, har, hak]

theorem merge_scalar_right (a b : Json) (hb : b.isScalar = true) :
    _merge_data_structures a b = b := by
  cases a <;> cases b <;> simp_all [Json.isScalar, _merge_data_structures]

theorem merge_arr_arr (xs ys : List Json) :
    _merge_data_structures (.arr xs) (.arr ys) = .arr (xs ++ ys) := by
  rw [_merge_data_structures]

theorem merge_obj_obj (a b : List (String × Json)) :
    _merge_data_structures (.obj a) (.obj b) = .obj (mergeEntries a b) := by
  rw [_merge_data_structures]

/-- C1: for every pair of mapping trees `A` and `B` (`B` a Python dict, so
its keys are pairwise distinct), `_merge_data_structures` returns a
mapping that contains every key of `A` and every key of `B`; a key present
in both whose two values are scalars maps to the value from `B`; a key present in
both whose two values are sequences maps to a sequence whose length is the
sum of the two lengths. -/
theorem merge_mapping_contract (A B : List (String × Json)) (hB : (keysA B).Nodup) :
    (∀ k, k ∈ keysA (_merge_data_structures (.obj A) (.obj B)).entries ↔
        k ∈ keysA A ∨ k ∈ keysA B)
  ∧ (∀ k a b, lookupA A k = some a → lookupA B k = some b →
        a.isScalar = true → b.isScalar = true →
        lookupA (_merge_data_structures (.obj A) (.obj B)).entries k = some b)
  ∧ (∀ k xs ys, lookupA A k = some (.arr xs) → lookupA B k = some (.arr ys) →
        ∃ zs, lookupA (_merge_data_structures (.obj A) (.obj B)).entries k = some (.arr zs)
          ∧ zs.length = xs.length + ys.length) := by
  rw [merge_obj_obj]
  refine ⟨?_, ?_, ?_⟩
  · intro k
    simpa [Json.entries] using mem_keysA_mergeEntries B A k
  · intro k a b ha hb hsa hsb
    rw [Json.entries, lookupA_mergeEntries B hB A k, hb, ha]
    simp [merge_scalar_right a b hsb]
  · intro k xs ys ha hb
    refine ⟨xs ++ ys, ?_, by simp⟩
    rw [Json.entries, lookupA_mergeEntries B hB A k, hb, ha]
    simp [merge_arr_arr]

/-- Witness for C1 at concrete mapping trees. -/
theorem merge_mapping_contract_witness :
    (keysA witB).Nodup ∧
    lookupA (_merge_data_structures (.obj witA) (.obj witB)).entries "x" = some (.num 2) :=
  ⟨by decide,
   (merge_mapping_contract witA witB (by decide)).2.1 "x" (.num 1) (.num 2) rfl rfl rfl rfl⟩

/-! ## Self-merge: C2 -/

theorem doubleSeqs_obj (m : List (String × Json)) :
    doubleSeqs (.obj m) = .obj (doubleSeqsEntries m) := by
  rw [doubleSeqs]

theorem doubleSeqs_arr (l : List Json) : doubleSeqs (.arr l) = .arr (l ++ l) := by
  rw [doubleSeqs]

theorem doubleSeqs_scalar (s : Json) (hs : s.isScalar = true) : doubleSeqs s = s := by
  cases s <;> first | rfl | simp_all [Json.isScalar]

theorem lookupA_doubleSeqsEntries (m : List (String × Json)) (k : String) :
    lookupA (doubleSeqsEntries m) k = (lookupA m k).map doubleSeqs := by
  induction m with
  | nil => rw [doubleSeqsEntries]; simp [lookupA]
  | cons p rest ih =>
    obtain ⟨pk, pv⟩ := p
    rw [doubleSeqsEntries, lookupA, lookupA]
    by_cases hk : pk = k <;> simp [hk, ih]

theorem setA_append_notmem (done rest : List (String × Json)) (k : String) (v x : Json)
    (h : k ∉ keysA done) : setA (done ++ (k, v) :: rest) k x = done ++ (k, x) :: rest := by
  induction done with
  | nil => simp [setA]
  | cons p dtl ih =>
    obtain ⟨pk, pv⟩ := p
    rw [keysA_cons, List.mem_cons] at h
    push_neg at h
    rw [List.cons_append, setA, if_neg (Ne.symm h.1), ih h.2, List.cons_append]

theorem lookupA_middle (done rest : List (String × Json)) (k : String) (v : Json)
    (h : k ∉ keysA done) : lookupA (done ++ (k, v) :: rest) k = some v := by
  rw [lookupA_append, lookupA_eq_none_iff.mpr h]
  simp [lookupA]

theorem nodupKeysB_iff (m : List (String × Json)) :
    nodupKeysB m = true ↔ (keysA m).Nodup := by
  induction m with
  | nil => simp [nodupKeysB, keysA]
  | cons p rest ih =>
    obtain ⟨pk, pv⟩ := p
    rw [nodupKeysB, keysA_cons, List.nodup_cons]
    simp [ih]

theorem objEntriesNodup_mem (m : List (String × Json)) (h : objEntriesNodup m = true) :
    ∀ p ∈ m, objKeysNodup p.2 = true := by
  induction m with
  | nil => intro p hp; simp at hp
  | cons q rest ih =>
    obtain ⟨qk, qv⟩ := q
    rw [objEntriesNodup, Bool.and_eq_true] at h
    intro p hp
    rcases List.mem_cons.mp hp with hp | hp
    · subst hp; exact h.1
    · exact ih h.2 p hp

theorem mergeEntries_self_general (l : List (String × Json)) :
    ∀ done : List (String × Json), (keysA (done ++ l)).Nodup →
    (∀ p ∈ l, _merge_data_structures p.2 p.2 = doubleSeqs p.2) →
    mergeEntries (done ++ l) l = done ++ doubleSeqsEntries l := by
  induction l with
  | nil =>
    intro done _ _
    rw [doubleSeqsEntries, mergeEntries_nil, List.append_nil]
  | cons p rest ihl =>
    intro done hnd ih
    obtain ⟨k, v⟩ := p
    have hknotdone : k ∉ keysA done := by
      have hnd1 := hnd
      rw [keysA_append, keysA_cons] at hnd1
      intro hmem
      exact (List.disjoint_of_nodup_append hnd1) hmem (List.mem_cons_self k _)
    rw [mergeEntries_cons, lookupA_middle done rest k v hknotdone]
    show mergeEntries (setA (done ++ (k, v) :: rest) k (_merge_data_structures v v)) rest =
      done ++ doubleSeqsEntries ((k, v) :: rest)
    have hv : _merge_data_structures v v = doubleSeqs v :=
      ih (k, v) (List.mem_cons_self (k, v) rest)
    rw [hv, setA_append_notmem done rest k v (doubleSeqs v) hknotdone]
    have hre : done ++ (k, doubleSeqs v) :: rest = (done ++ [(k, doubleSeqs v)]) ++ rest := by
      simp
    rw [hre]
    have hnd2 : (keysA ((done ++ [(k, doubleSeqs v)]) ++ rest)).Nodup := by
      simp only [keysA_append, keysA_cons, keysA_nil] at hnd ⊢
      simpa using hnd
    rw [ihl (done ++ [(k, doubleSeqs v)]) hnd2 (fun q hq => ih q (List.mem_cons_of_mem _ hq))]
    rw [doubleSeqsEntries]
    simp

theorem merge_self_eq_doubleSeqs : ∀ (n : Nat) (j : Json), sizeOf j ≤ n →
    objKeysNodup j = true → _merge_data_structures j j = doubleSeqs j := by
  intro n
  induction n with
  | zero =>
    intro j hj _
    exact absurd hj (by cases j <;> simp)
  | succ n ihn =>
    intro j hj hwf
    cases j with
    | obj m =>
      rw [merge_obj_obj, doubleSeqs_obj]
      rw [objKeysNodup, Bool.and_eq_true] at hwf
      have hnd : (keysA m).Nodup := (nodupKeysB_iff m).mp hwf.1
      have hmem : ∀ p ∈ m, _merge_data_structures p.2 p.2 = doubleSeqs p.2 := by
        intro p hp
        have hsz : sizeOf p.2 ≤ n := by
          have h1 : sizeOf p < sizeOf m := List.sizeOf_lt_of_mem hp
          have h2 : sizeOf p.2 < sizeOf p := by
            obtain ⟨a, b⟩ := p
            simp
          have h3 : sizeOf (Json.obj m) = 1 + sizeOf m := by simp
          omega
        exact ihn p.2 hsz (objEntriesNodup_mem m hwf.2 p hp)
      have := mergeEntries_self_general m [] (by simpa using hnd) hmem
      simpa using this
    | arr l =>
      rw [merge_arr_arr, doubleSeqs_arr]
    | null => rfl
    | bool b => rfl
    | num i => rfl
    | str s => rfl

theorem leafAt_doubleSeqs (p : List String) (j : Json) :
    leafAt (doubleSeqs j) p = (leafAt j p).map doubleSeqs := by
  induction p generalizing j with
  | nil => simp [leafAt]
  | cons k rest ih =>
    cases j with
    | obj m =>
      rw [doubleSeqs_obj, leafAt, leafAt, lookupA_doubleSeqsEntries]
      cases lookupA m k with
      | none => simp
      | some v => simp [ih]
    | arr l => rfl
    | null => rfl
    | bool b => rfl
    | num i => rfl
    | str s => rfl

/-- C2: merging a tree with itself (keys of every Python dict node being
pairwise distinct) is not idempotent on sequences: at every mapping-key
path, a sequence leaf comes back with exactly twice its length and a
scalar leaf comes back unchanged. -/
theorem merge_self_doubles_seq_leaves (A : Json) (h : objKeysNodup A = true) (p : List String) :
    (∀ l, leafAt A p = some (.arr l) →
        leafAt (_merge_data_structures A A) p = some (.arr (l ++ l)) ∧
          (l ++ l).length = 2 * l.length)
  ∧ (∀ s, leafAt A p = some s → s.isScalar = true →
        leafAt (_merge_data_structures A A) p = some s) := by
  have hm : _merge_data_structures A A = doubleSeqs A :=
    merge_self_eq_doubleSeqs (sizeOf A) A le_rfl h
  constructor
  · intro l hl
    rw [hm, leafAt_doubleSeqs, hl]
    exact ⟨by simp [doubleSeqs_arr], by simp [Nat.two_mul]⟩
  · intro s hs hscal
    rw [hm, leafAt_doubleSeqs, hs]
    simp [doubleSeqs_scalar s hscal]

/-- Witness for C2 at a concrete tree. -/
theorem merge_self_doubles_seq_leaves_witness :
    objKeysNodup witSelf = true ∧
    (leafAt (_merge_data_structures witSelf witSelf) ["l"] =
        some (.arr ([Json.null] ++ [Json.null])) ∧
      ([Json.null] ++ [Json.null]).length = 2 * [Json.null].length) :=
  ⟨by decide, (merge_self_doubles_seq_leaves witSelf (by decide) ["l"]).1 [Json.null] rfl⟩

/-! ## Scan orchestration: C3 and C9 -/

theorem runSearches_nil (scanners : List (String × Collector)) (target : List (String × String))
    (acc : List (String × Json)) : runSearches scanners target acc [] = acc := by
  rw [runSearches]

theorem runSearches_cons (scanners : List (String × Collector)) (target : List (String × String))
    (acc : List (String × Json)) (st : String) (rest : List String) :
    runSearches scanners target acc (st :: rest) =
      match lookupA scanners st with
      | some scanner =>
          runSearches scanners target (setA acc st (categoryEntry scanner target)) rest
      | none => runSearches scanners target acc rest := by
  rw [runSearches]

theorem lookupA_runSearches (scanners : List (String × Collector))
    (target : List (String × String)) (sts : List String) (acc : List (String × Json))
    (k : String) :
    lookupA (runSearches scanners target acc sts) k =
      match lookupA scanners k with
      | some scanner =>
          if k ∈ sts then some (categoryEntry scanner target) else lookupA acc k
      | none => lookupA acc k := by
  induction sts generalizing acc with
  | nil =>
    cases h : lookupA scanners k <;> simp [runSearches_nil, h]
  | cons st rest ih =>
    rw [runSearches_cons]
    cases hst : lookupA scanners st with
    | some sc =>
      rw [ih]
      by_cases hk : k = st
      · subst hk
        rw [hst]
        by_cases hmem : k ∈ rest <;> simp [hmem, lookupA_setA_self]
      · cases hsk : lookupA scanners k <;>
          simp [hsk, lookupA_setA_ne _ _ _ _ hk, List.mem_cons, hk]
    | none =>
      rw [ih]
      by_cases hk : k = st
      · subst hk
        rw [hst]
      · cases hsk : lookupA scanners k <;> simp [hsk, List.mem_cons, hk]

theorem mem_keysA_iff_lookupA {α : Type} {m : List (String × α)} {k : String} :
    k ∈ keysA m ↔ lookupA m k ≠ none := by
  rw [ne_eq, lookupA_eq_none_iff, not_not]

/-- C9: the results mapping of a scan session contains exactly the
requested search types that have a registered scanner; a requested
category with no registered collector does not appear at all — in
particular not as a failed entry. -/
theorem unknown_category_omitted (scanners : List (String × Collector))
    (target : List (String × String)) (search_types : List String) (now : String)
    (k : String) :
    k ∈ keysA ((scan_target scanners target search_types now).getJ "results" .null).entries ↔
      k ∈ search_types ∧ k ∈ keysA scanners := by
  have hres : ((scan_target scanners target search_types now).getJ "results" .null).entries =
      runSearches scanners target [] search_types := rfl
  rw [hres, mem_keysA_iff_lookupA, lookupA_runSearches]
  cases hsk : lookupA scanners k with
  | some sc =>
    have hk : k ∈ keysA scanners := lookupA_mem_keysA hsk
    by_cases hmem : k ∈ search_types <;> simp [hmem, hk, lookupA]
  | none =>
    have hk : k ∉ keysA scanners := lookupA_eq_none_iff.mp hsk
    simp [hk, lookupA]

/-- C3: when a requested registered collector `X` raises and another
requested registered collector `Y` returns, `scan_target` still returns
(it is a total function of its inputs) with a `failed` entry carrying the
exception text for `X` and a `completed` entry carrying the returned data
for `Y`; the entry of each category depends only on the outcome of its own
outcome. -/
theorem scan_failure_isolation (scanners : List (String × Collector))
    (target : List (String × String)) (search_types : List String) (now : String)
    (X Y : String) (cX cY : Collector) (e : String) (d : Json)
    (hX : lookupA scanners X = some cX) (hY : lookupA scanners Y = some cY)
    (hXmem : X ∈ search_types) (hYmem : Y ∈ search_types)
    (hfail : cX target = .error e) (hok : cY target = .ok d) :
    (∃ rX, lookupA ((scan_target scanners target search_types now).getJ "results" .null).entries X
        = some rX ∧ rX.getJ "status" .null = .str "failed" ∧ rX.getJ "error" .null = .str e)
  ∧ (∃ rY, lookupA ((scan_target scanners target search_types now).getJ "results" .null).entries Y
        = some rY ∧ rY.getJ "status" .null = .str "completed" ∧ rY.getJ "data" .null = d) := by
  have hres : ((scan_target scanners target search_types now).getJ "results" .null).entries =
      runSearches scanners target [] search_types := rfl
  constructor
  · refine ⟨categoryEntry cX target, ?_, ?_, ?_⟩
    · rw [hres, lookupA_runSearches, hX]
      simp [hXmem]
    · rw [categoryEntry, hfail]
      simp [Json.getJ, lookupA]
    · rw [categoryEntry, hfail]
      simp [Json.getJ, lookupA]
  · refine ⟨categoryEntry cY target, ?_, ?_, ?_⟩
    · rw [hres, lookupA_runSearches, hY]
      simp [hYmem]
    · rw [categoryEntry, hok]
      simp [Json.getJ, lookupA]
    · rw [categoryEntry, hok]
      simp [Json.getJ, lookupA]

/-- Witness for C3 on a concrete registry with one raising and one
succeeding collector. -/
theorem scan_failure_isolation_witness :
    (lookupA witScanners "social" = some witFail ∧ lookupA witScanners "breach" = some witOk ∧
      witFail [("username", "u")] = .error "network failure" ∧
      witOk [("username", "u")] = .ok (.obj [("found", .num 3)])) ∧
    ((∃ rX, lookupA ((scan_target witScanners [("username", "u")] ["social", "breach"] "T").getJ
          "results" .null).entries "social"
        = some rX ∧ rX.getJ "status" .null = .str "failed" ∧
          rX.getJ "error" .null = .str "network failure")
    ∧ (∃ rY, lookupA ((scan_target witScanners [("username", "u")] ["social", "breach"] "T").getJ
          "results" .null).entries "breach"
        = some rY ∧ rY.getJ "status" .null = .str "completed" ∧
          rY.getJ "data" .null = .obj [("found", .num 3)])) :=
  ⟨⟨rfl, rfl, rfl, rfl⟩,
   scan_failure_isolation witScanners [("username", "u")] ["social", "breach"] "T"
     "social" "breach" witFail witOk "network failure" (.obj [("found", .num 3)])
     rfl rfl (by decide) (by decide) rfl rfl⟩

/-! ## Profile name derivation: C7 -/

/-- C8: `load_profile` returns the parsed profile exactly as persisted
when the persisted form parses, and the absence signal `none` — never an
exception, the function being total into `Option` — both when no profile
of that name exists and when the persisted form does not parse; the two
absence cases are indistinguishable at the interface. -/
theorem load_profile_contract (store : Store) (name : String) :
    (lookupA store name = none → load_profile store name = none)
  ∧ (lookupA store name = some none → load_profile store name = none)
  ∧ (∀ p, lookupA store name = some (some p) → load_profile store name = some p) := by
  refine ⟨?_, ?_, ?_⟩
  · intro h
    simp [load_profile, h]
  · intro h
    simp [load_profile, h]
  · intro p h
    simp [load_profile, h]

/-- Witness for C8 on a concrete store with a parseable and a corrupt
entry. -/
theorem load_profile_contract_witness :
    (lookupA witStore "good" = some (some (.obj [("profile_name", .str "good")])) ∧
      lookupA witStore "bad" = some none ∧ lookupA witStore "missing" = none) ∧
    load_profile witStore "good" = some (.obj [("profile_name", .str "good")]) :=
  ⟨⟨rfl, rfl, rfl⟩,
   (load_profile_contract witStore "good").2.2 (.obj [("profile_name", .str "good")]) rfl⟩

/-! ## Save over an existing profile: C10 -/

theorem getJ_jset_ne (j : Json) (key k : String) (v d : Json) (h : k ≠ key) :
    (j.jset key v).getJ k d = j.getJ k d := by
  cases j <;> simp [Json.jset, Json.getJ, lookupA_setA_ne _ _ _ _ h]

theorem mergeProfiles_frame (existing new : Json) (k : String)
    (h1 : k ≠ "last_updated") (h2 : k ≠ "scan_history") (h3 : k ≠ "current_data")
    (h4 : k ≠ "summary") :
    (_merge_profiles existing new).getJ k .null = existing.getJ k .null := by
  rw [_merge_profiles]
  simp only [getJ_jset_ne _ _ _ _ _ h4, getJ_jset_ne _ _ _ _ _ h3,
    getJ_jset_ne _ _ _ _ _ h2, getJ_jset_ne _ _ _ _ _ h1]

/-- C10: a save over an already-existing profile keeps `created_at`,
`profile_name` and `target` exactly as in the existing profile; every
field other than `last_updated`, `scan_history`, `current_data` and
`summary` is left unchanged by the merge. -/
theorem save_preserves_identity_fields (store : Store) (target : List (String × String))
    (scan_results : Json) (profile_name : Option String) (now : String) (existing : Json)
    (hload : load_profile store (save_profile store target scan_results profile_name now).2
        = some existing) :
    ∃ merged,
      load_profile (save_profile store target scan_results profile_name now).1
          (save_profile store target scan_results profile_name now).2 = some merged
      ∧ merged.getJ "created_at" .null = existing.getJ "created_at" .null
      ∧ merged.getJ "profile_name" .null = existing.getJ "profile_name" .null
      ∧ merged.getJ "target" .null = existing.getJ "target" .null
      ∧ ∀ k, k ≠ "last_updated" → k ≠ "scan_history" → k ≠ "current_data" → k ≠ "summary" →
          merged.getJ k .null = existing.getJ k .null := by
  have hload2 : load_profile store (resolveName target profile_name now) = some existing := hload
  refine ⟨_merge_profiles existing
      (newProfileData target scan_results (resolveName target profile_name now) now), ?_, ?_⟩
  · show load_profile
        (setA store (resolveName target profile_name now) (some
          (match load_profile store (resolveName target profile_name now) with
           | some ex => _merge_profiles ex
               (newProfileData target scan_results (resolveName target profile_name now) now)
           | none =>
               newProfileData target scan_results (resolveName target profile_name now) now)))
        (resolveName target profile_name now) = _
    rw [hload2]
    simp [load_profile, lookupA_setA_self]
  · refine ⟨?_, ?_, ?_, ?_⟩
    · exact mergeProfiles_frame _ _ _ (by decide) (by decide) (by decide) (by decide)
    · exact mergeProfiles_frame _ _ _ (by decide) (by decide) (by decide) (by decide)
    · exact mergeProfiles_frame _ _ _ (by decide) (by decide) (by decide) (by decide)
    · intro k hk1 hk2 hk3 hk4
      exact mergeProfiles_frame _ _ _ hk1 hk2 hk3 hk4

/-- Witness for C10: a second save over the profile created by a first
save keeps the identity fields. -/
theorem save_preserves_identity_fields_witness :
    (load_profile (save_profile [] targetTestuser sessionSocial none "T1").1
        (save_profile (save_profile [] targetTestuser sessionSocial none "T1").1
          targetTestuser sessionBreach none "T2").2
      = some ((load_profile (save_profile [] targetTestuser sessionSocial none "T1").1
          "profile_testuser").getD .null)) ∧
    ∃ merged,
      load_profile (save_profile (save_profile [] targetTestuser sessionSocial none "T1").1
            targetTestuser sessionBreach none "T2").1
          (save_profile (save_profile [] targetTestuser sessionSocial none "T1").1
            targetTestuser sessionBreach none "T2").2 = some merged
      ∧ merged.getJ "created_at" .null =
          ((load_profile (save_profile [] targetTestuser sessionSocial none "T1").1
            "profile_testuser").getD .null).getJ "created_at" .null
      ∧ merged.getJ "profile_name" .null =
          ((load_profile (save_profile [] targetTestuser sessionSocial none "T1").1
            "profile_testuser").getD .null).getJ "profile_name" .null
      ∧ merged.getJ "target" .null =
          ((load_profile (save_profile [] targetTestuser sessionSocial none "T1").1
            "profile_testuser").getD .null).getJ "target" .null
      ∧ ∀ k, k ≠ "last_updated" → k ≠ "scan_history" → k ≠ "current_data" → k ≠ "summary" →
          merged.getJ k .null =
            ((load_profile (save_profile [] targetTestuser sessionSocial none "T1").1
              "profile_testuser").getD .null).getJ k .null :=
  ⟨rfl,
   save_preserves_identity_fields (save_profile [] targetTestuser sessionSocial none "T1").1
     targetTestuser sessionBreach none "T2"
     ((load_profile (save_profile [] targetTestuser sessionSocial none "T1").1
       "profile_testuser").getD .null) rfl⟩

/-! ## History / current_data divergence: C4 and C5 -/

/-- C4, evaluated at the failing input (the very first save of a
session): the stored profile has an empty `scan_history` while its
`current_data` is the whole first session, so `current_data` differs from
the fold of the (empty) history through the merge engine and is not
reconstructible from `scan_history` — `save_profile` seeds the history
with `[]` and never appends the first session. -/
theorem first_save_history_diverges :
    (save_profile [] targetTestuser sessionSocial none "T1").2 = "profile_testuser" ∧
    ∃ P, load_profile (save_profile [] targetTestuser sessionSocial none "T1").1
        "profile_testuser" = some P ∧
      P.getJ "scan_history" .null = .arr [] ∧
      P.getJ "current_data" .null = sessionSocial ∧
      replay_history [] ≠ P.getJ "current_data" .null := by
  refine ⟨rfl, _, rfl, rfl, rfl, ?_⟩
  show Json.obj [] ≠ sessionSocial
  simp [sessionSocial]

/-- C5, evaluated at its concrete input: after the first save (social
session) the stored history has zero entries, not one; after the second
save (breach session, same resolved name) it has one entry, not two — the
first session is never recorded, which also makes the repository test
`test_merge_profiles` (expecting two entries) fail.  The summary
half of the claim does hold: after the second save both the social and
the breach counters are nonzero. -/
theorem two_saves_history_count :
    ∃ P1 P2,
      load_profile (save_profile [] targetTestuser sessionSocial none "T1").1
        "profile_testuser" = some P1 ∧
      load_profile (save_profile (save_profile [] targetTestuser sessionSocial none "T1").1
        targetTestuser sessionBreach none "T2").1 "profile_testuser" = some P2 ∧
      (P1.getJ "scan_history" .null).arrLen = 0 ∧
      (P2.getJ "scan_history" .null).arrLen = 1 ∧
      (P2.getJ "summary" .null).getJ "social_media_profiles" .null = .num 2 ∧
      (P2.getJ "summary" .null).getJ "breaches_found" .null = .num 1 :=
  ⟨_, _, rfl, rfl, rfl, rfl, rfl, rfl⟩

/-! ## The concrete alice scenario: C6 -/

/-- C6 counterexample, at the concrete input of the claim itself: saving the
session whose social data is the flat mapping with `found_profiles 2`
resolves the name `profile_alice` but produces a summary whose
`social_media_profiles` is `0`, not `2` (the generator reads the count
from `data["summary"]["found_profiles"]`), and whose `total_scans` is
`1`, not `0`. -/
theorem alice_flat_scenario_fails :
    (save_profile [] targetAlice sessionAliceFlat none "TA").2 = "profile_alice" ∧
    ∃ P, load_profile (save_profile [] targetAlice sessionAliceFlat none "TA").1 "profile_alice"
        = some P ∧
      (P.getJ "summary" .null).getJ "social_media_profiles" .null = .num 0 ∧
      (P.getJ "summary" .null).getJ "social_media_profiles" .null ≠ .num 2 ∧
      (P.getJ "summary" .null).getJ "total_scans" .null = .num 1 ∧
      (P.getJ "summary" .null).getJ "total_scans" .null ≠ .num 0 := by
  refine ⟨rfl, _, rfl, rfl, ?_, rfl, ?_⟩
  · show Json.num 0 ≠ Json.num 2
    simp
  · show Json.num 1 ≠ Json.num 0
    simp

/-- C6 (amended): with the profile count at the sub-path the summary
generator reads, `data["summary"]["found_profiles"] = 2`, saving the
session for target `{"username": "alice"}` resolves the name
`profile_alice` and produces the summary with `social_media_profiles = 2`,
`total_scans = 1` (one completed category), and every other counter
`0`. -/
theorem alice_nested_scenario :
    (save_profile [] targetAlice sessionAliceNested none "TA").2 = "profile_alice" ∧
    ∃ P, load_profile (save_profile [] targetAlice sessionAliceNested none "TA").1
        "profile_alice" = some P ∧
      P.getJ "summary" .null = .obj [("total_scans", .num 1),
        ("social_media_profiles", .num 2), ("breaches_found", .num 0),
        ("public_records", .num 0), ("domains_checked", .num 0), ("images_found", .num 0),
        ("locations_found", .num 0)] :=
  ⟨rfl, _, rfl, rfl⟩

end AutoOsint
